import Mathlib

/-
Verification development for the translation pipeline of the
paradox-auto-translate repository.

The embedding works over List Char so that the JavaScript regular
expression scans of the source can be reproduced as explicit, executable
scanners.  Every definition mirrors one function of the repository
(file and symbol named in its doc comment); fuel parameters are used to
make the scanners structurally recursive, with the fuel chosen so that
it can never run out on the input it is called with.
-/

namespace PAT

/-- JS whitespace class: the set used by String.prototype.trim and by
the regex class backslash-s (space, tab, LF, VT, FF, CR, NBSP and the
Unicode space separators, BOM). -/
def isJsWs (c : Char) : Bool :=
  decide (c.toNat = 0x20 ∨ (0x9 ≤ c.toNat ∧ c.toNat ≤ 0xD) ∨ c.toNat = 0xA0 ∨
    c.toNat = 0x1680 ∨ (0x2000 ≤ c.toNat ∧ c.toNat ≤ 0x200A) ∨ c.toNat = 0x2028 ∨
    c.toNat = 0x2029 ∨ c.toNat = 0x202F ∨ c.toNat = 0x205F ∨ c.toNat = 0x3000 ∨
    c.toNat = 0xFEFF)

/-- JS word-character class (regex backslash-w): ASCII letters, digits, underscore. -/
def isWordChar (c : Char) : Bool :=
  decide ((Char.ofNat 97 ≤ c ∧ c ≤ Char.ofNat 122) ∨ (Char.ofNat 65 ≤ c ∧ c ≤ Char.ofNat 90) ∨
    (Char.ofNat 48 ≤ c ∧ c ≤ Char.ofNat 57) ∨ c = Char.ofNat 95)

/-- Character class of the variable-name regexes of the repository:
[a-zA-Z0-9_] plus hyphen and dot. -/
def isVarNameChar (c : Char) : Bool :=
  isWordChar c || c == Char.ofNat 45 || c == Char.ofNat 46

/-- ASCII letter. -/
def isAsciiLetter (c : Char) : Bool :=
  decide ((Char.ofNat 97 ≤ c ∧ c ≤ Char.ofNat 122) ∨ (Char.ofNat 65 ≤ c ∧ c ≤ Char.ofNat 90))

/-- Lowercase ASCII letter. -/
def isLowerAlpha (c : Char) : Bool := decide (Char.ofNat 97 ≤ c ∧ c ≤ Char.ofNat 122)

/-- Uppercase ASCII letter. -/
def isUpperAlpha (c : Char) : Bool := decide (Char.ofNat 65 ≤ c ∧ c ≤ Char.ofNat 90)

/-- Hangul syllable block, the regex class used by the validator for the
target alphabet. -/
def isHangul (c : Char) : Bool := decide (0xAC00 ≤ c.toNat ∧ c.toNat ≤ 0xD7A3)

/-- JS regex line terminators, which the dot metacharacter does not match. -/
def isLineTerm (c : Char) : Bool :=
  decide (c.toNat = 0xA ∨ c.toNat = 0xD ∨ c.toNat = 0x2028 ∨ c.toNat = 0x2029)

/-- ASCII lowering, the fragment of String.prototype.toLowerCase exercised by
the repository (its inputs are ASCII or Hangul, and Hangul has no case). -/
def jsToLower (c : Char) : Char :=
  if isUpperAlpha c then Char.ofNat (c.toNat + 32) else c

/-- Lowercase an entire character list. -/
def lowerStr (s : List Char) : List Char := s.map jsToLower

/-- String.prototype.trim over a character list. -/
def jsTrim (s : List Char) : List Char :=
  ((s.dropWhile isJsWs).reverse.dropWhile isJsWs).reverse

/-- The single-quote character, kept out of string literals. -/
def sQuote : Char := Char.ofNat 39

/-- The double-quote character. -/
def dQuote : Char := Char.ofNat 34

/-- The backslash character. -/
def bSlash : Char := Char.ofNat 92

/-- Does the second list start with the first one? -/
def listStartsWith : List Char → List Char → Bool
  | [], _ => true
  | _ :: _, [] => false
  | p :: ps, c :: cs => p == c && listStartsWith ps cs

/-- Substring containment over character lists (String.prototype.includes). -/
def containsSub (pat : List Char) (s : List Char) : Bool :=
  match s with
  | [] => pat.isEmpty
  | _ :: rest => listStartsWith pat s || containsSub pat rest

/-- Generic left-to-right global regex scan: step attempts a match at the
current position, returning the matched text and the remainder after the
match; on failure the scan advances one character, exactly like a JS global
regex.  Every step function below consumes at least one character on
success, so fuel equal to the length of the list never runs out. -/
def scanWith (step : List Char → Option (List Char × List Char)) :
    Nat → List Char → List (List Char)
  | 0, _ => []
  | _ + 1, [] => []
  | fuel + 1, c :: rest =>
    match step (c :: rest) with
    | some (m, s) => m :: scanWith step fuel s
    | none => scanWith step fuel rest

/-- All matches of the step-described pattern in the list (regex match with
the global flag). -/
def jsMatchAll (step : List Char → Option (List Char × List Char))
    (s : List Char) : List (List Char) :=
  scanWith step s.length s

/-- Step for a fixed two-character pattern such as the dollar-bracket mix. -/
def step2 (a b : Char) : List Char → Option (List Char × List Char)
  | x :: y :: rest => if x == a && y == b then some ([a, b], rest) else none
  | _ => none

/-- Step for the spaced dollar pattern of detectMalformedVariables
(dollar, whitespace, word characters, whitespace, dollar). -/
def stepDollarSpaced : List Char → Option (List Char × List Char)
  | c :: rest =>
    if c == Char.ofNat 36 then
      let (w1, r1) := rest.span isJsWs
      if w1.isEmpty then none else
      let (w2, r2) := r1.span isWordChar
      if w2.isEmpty then none else
      let (w3, r3) := r2.span isJsWs
      if w3.isEmpty then none else
      match r3 with
      | d :: r4 =>
        if d == Char.ofNat 36 then some (c :: (w1 ++ w2 ++ w3 ++ [d]), r4) else none
      | [] => none
    else none
  | [] => none

/-- Step for a complete delimiter-wrapped variable (delimiter, one or more
variable-name characters, delimiter), used for dollar, pound and at signs. -/
def stepCompleteVar (d : Char) : List Char → Option (List Char × List Char)
  | c :: rest =>
    if c == d then
      let (run, r1) := rest.span isVarNameChar
      if run.isEmpty then none else
      match r1 with
      | c2 :: r2 => if c2 == d then some (d :: run ++ [d], r2) else none
      | [] => none
    else none
  | [] => none

/-- Step for the unterminated-start pattern (delimiter then variable-name
characters with a negative lookahead forbidding the delimiter).  The JS
engine backtracks the greedy run by one character when the run is followed
by the delimiter, which this step reproduces. -/
def stepVarStart (d : Char) : List Char → Option (List Char × List Char)
  | c :: rest =>
    if c == d then
      let (run, r1) := rest.span isVarNameChar
      if run.isEmpty then none else
      match r1 with
      | c2 :: _ =>
        if c2 == d then
          match run.reverse with
          | last :: revInit =>
            if revInit.isEmpty then none
            else some (d :: revInit.reverse, last :: r1)
          | [] => none
        else some (d :: run, r1)
      | [] => some (d :: run, r1)
    else none
  | [] => none

/-- Scan for the unterminated-end pattern (variable-name characters then the
delimiter, with a negative lookbehind forbidding the delimiter).  The
previous character is threaded through the scan to decide the lookbehind. -/
def scanVarEndAux (d : Char) : Nat → Option Char → List Char → List (List Char)
  | 0, _, _ => []
  | _ + 1, _, [] => []
  | fuel + 1, prev, c :: rest =>
    if prev != some d && isVarNameChar c then
      let (run, r1) := (c :: rest).span isVarNameChar
      match r1 with
      | c2 :: r2 =>
        if c2 == d then (run ++ [d]) :: scanVarEndAux d fuel (some d) r2
        else scanVarEndAux d fuel (some c) rest
      | [] => scanVarEndAux d fuel (some c) rest
    else scanVarEndAux d fuel (some c) rest

/-- All matches of the unterminated-end pattern. -/
def scanVarEnd (d : Char) (s : List Char) : List (List Char) :=
  scanVarEndAux d s.length none s

/-- Step for a bracketed wrapper around a complete delimiter variable, the
complex mixed pattern (open bracket, delimiter, any non-bracket characters,
delimiter, close bracket). -/
def stepBracketWrapped (d : Char) : List Char → Option (List Char × List Char)
  | b :: c :: rest =>
    if b == Char.ofNat 91 && c == d then
      let (mid, r1) := rest.span (fun x => x != Char.ofNat 93)
      match r1 with
      | e :: r2 =>
        if e == Char.ofNat 93 then
          match mid.reverse with
          | lastc :: _ =>
            if lastc == d then some (b :: c :: (mid ++ [e]), r2) else none
          | [] => none
        else none
      | [] => none
    else none
  | _ => none

/-- Deduplication with first-occurrence order, the behaviour of wrapping a JS
array in a Set and spreading it back. -/
def jsDedupAux (seen : List (List Char)) : List (List Char) → List (List Char)
  | [] => []
  | x :: rest =>
    if seen.contains x then jsDedupAux seen rest
    else x :: jsDedupAux (x :: seen) rest

/-- Deduplicate keeping first occurrences. -/
def jsDedup (l : List (List Char)) : List (List Char) := jsDedupAux [] l

/-- Embeds detectMalformedVariables of the validator part of
src/scripts/utils/upstream.ts (lines 745-878): collects every occurrence of
a cross-delimiter placeholder mix, an unterminated delimiter not covered by
a complete variable, or a bracket-wrapped delimiter variable, and
deduplicates the result. -/
def detectMalformedVariables (text : List Char) : List (List Char) :=
  let dollar := Char.ofNat 36
  let pound := Char.ofNat 163
  let atSign := Char.ofNat 64
  let lBracket := Char.ofNat 91
  let lAngle := Char.ofNat 60
  let dollarMixed :=
    jsMatchAll (step2 dollar lBracket) text ++ jsMatchAll (step2 dollar lAngle) text ++
      jsMatchAll stepDollarSpaced text
  let poundMixed :=
    jsMatchAll (step2 pound lBracket) text ++ jsMatchAll (step2 pound lAngle) text
  let atMixed :=
    jsMatchAll (step2 atSign lBracket) text ++ jsMatchAll (step2 atSign lAngle) text
  let bracketInner :=
    jsMatchAll (step2 lBracket dollar) text ++ jsMatchAll (step2 lBracket pound) text ++
      jsMatchAll (step2 lBracket atSign) text ++ jsMatchAll (step2 lBracket lAngle) text
  let angleInner :=
    jsMatchAll (step2 lAngle dollar) text ++ jsMatchAll (step2 lAngle lBracket) text ++
      jsMatchAll (step2 lAngle pound) text
  let completeDollar := jsMatchAll (stepCompleteVar dollar) text
  let completePound := jsMatchAll (stepCompleteVar pound) text
  let completeAt := jsMatchAll (stepCompleteVar atSign) text
  let keep := fun (complete : List (List Char)) (p : List Char) =>
    !(complete.any (fun c => containsSub p c))
  let unbalanced :=
    (jsMatchAll (stepVarStart dollar) text).filter (keep completeDollar) ++
      (scanVarEnd dollar text).filter (keep completeDollar) ++
      (jsMatchAll (stepVarStart pound) text).filter (keep completePound) ++
      (scanVarEnd pound text).filter (keep completePound) ++
      (jsMatchAll (stepVarStart atSign) text).filter (keep completeAt) ++
      (scanVarEnd atSign text).filter (keep completeAt)
  let complexMixed :=
    jsMatchAll (stepBracketWrapped dollar) text ++
      jsMatchAll (stepBracketWrapped pound) text ++
      jsMatchAll (stepBracketWrapped atSign) text
  jsDedup (dollarMixed ++ poundMixed ++ atMixed ++ bracketInner ++ angleInner ++
    unbalanced ++ complexMixed)

/-- Domain tag of the pipeline (type GameType of src/scripts/utils/prompts.ts,
in its final extent covering the three dictionaries of the dictionary
module). -/
inductive GameType where
  | ck3
  | stellaris
  | vic3
deriving DecidableEq

/-- Rejection reasons of the validator.  The source formats each reason as a
Korean string carrying the offending patterns; the embedding keeps the same
data as constructor arguments instead of formatting it. -/
inductive Reason where
  | malformedVariables (patterns : List (List Char))
  | unwantedPhrase
  | styleMarkerTranslated
  | technicalIdentifierMissing (missing : List (List Char))
  | missingGameVariables (missing : List (List Char))
  | koreanInGameVariables (vars : List (List Char))
deriving DecidableEq

/-- Result record of the validator (interface ValidationResult). -/
structure ValidationResult where
  isValid : Bool
  reason : Option Reason := none
deriving DecidableEq

/-- The unwanted meta-commentary fragments of validateTranslation.  The last
phrase contains an apostrophe, assembled here character by character. -/
def unwantedPhrases : List (List Char) :=
  ["네, 알겠습니다".data, "네 알겠습니다".data, "요청하신".data, "번역입니다".data,
    "yes, i understand".data, "here is the translation".data,
    "here".data ++ sQuote :: "s the translation".data]

/-- Does the candidate contain one of the unwanted phrases, compared after
lowercasing both sides as the source does? -/
def hasUnwantedPhrase (translation : List Char) : Bool :=
  unwantedPhrases.any (fun phrase => containsSub (lowerStr phrase) (lowerStr translation))

/-- Step for a style-marker opening (hash, one or more ASCII letters in
either case, one whitespace character). -/
def stepStyleMarker : List Char → Option (List Char × List Char)
  | c :: rest =>
    if c == Char.ofNat 35 then
      let (run, r1) := rest.span isAsciiLetter
      if run.isEmpty then none else
      match r1 with
      | w :: r2 => if isJsWs w then some (c :: run ++ [w], r2) else none
      | [] => none
    else none
  | [] => none

/-- Test for a translated style marker (hash, two or more Hangul syllables,
whitespace) anywhere in the candidate. -/
def hangulStyleTest : List Char → Bool
  | [] => false
  | c :: rest =>
    (c == Char.ofNat 35 &&
      (let (run, r1) := rest.span isHangul
       decide (2 ≤ run.length) &&
         match r1 with
         | w :: _ => isJsWs w
         | [] => false)) ||
      hangulStyleTest rest

/-- The style-marker loop of validateTranslation: walk the markers found in
the source; at the first marker missing from the candidate, reject exactly
when the candidate contains a Hangul style marker. -/
def styleLoopReject (translation : List Char) : List (List Char) → Bool
  | [] => false
  | p :: rest =>
    if !containsSub p translation then
      if hangulStyleTest translation then true else styleLoopReject translation rest
    else styleLoopReject translation rest

/-- Is the character run a snake-case technical identifier, that is a full
match of lowercase letter groups separated by single underscores with at
least one underscore? -/
def snakeGroups : Nat → List Char → Bool
  | _, [] => true
  | fuel + 1, c :: r2 =>
    if c == Char.ofNat 95 then
      let (seg, r3) := r2.span isLowerAlpha
      !seg.isEmpty && snakeGroups fuel r3
    else false
  | 0, _ :: _ => false

/-- Full-run snake-case test. -/
def isSnakeCase (run : List Char) : Bool :=
  let (seg, r) := run.span isLowerAlpha
  !seg.isEmpty && !r.isEmpty && snakeGroups run.length r

/-- Collect the technical identifiers of the source: each maximal word-
character run that is a snake-case identifier, is not preceded by an at,
dollar or pound sign (the negative lookbehind) and is not followed by an
exclamation mark (the negative lookahead).  Word boundaries of the regex
coincide with the borders of maximal word runs. -/
def techIdsAux : Nat → Option Char → List Char → List (List Char)
  | 0, _, _ => []
  | _ + 1, _, [] => []
  | fuel + 1, prev, c :: rest =>
    if isWordChar c then
      let (run, r1) := (c :: rest).span isWordChar
      let okBefore :=
        match prev with
        | some p => !(p == Char.ofNat 64 || p == Char.ofNat 36 || p == Char.ofNat 163)
        | none => true
      let okAfter :=
        match r1 with
        | a :: _ => a != Char.ofNat 33
        | [] => true
      (if okBefore && isSnakeCase run && okAfter then [run] else []) ++
        techIdsAux fuel (some (run.reverse.headD c)) r1
    else techIdsAux fuel (some c) rest

/-- All technical identifiers of a string. -/
def technicalIdentifiersOf (s : List Char) : List (List Char) :=
  techIdsAux s.length none s

/-- Marker test at the head of a bracket content: a pipe followed by an
uppercase letter, the word Get followed by an uppercase letter, a lowercase
or underscore character followed by a dot and an uppercase letter, or a
lowercase or underscore character followed by an underscore and the
letter i. -/
def isLowerUnderscore (c : Char) : Bool := isLowerAlpha c || c == Char.ofNat 95

/-- Does one of the four game-variable markers occur at the head? -/
def markerHere : List Char → Bool
  | c :: u :: _ =>
    if c == Char.ofNat 124 then isUpperAlpha u
    else false
  | _ => false

/-- Does one of the four game-variable markers occur anywhere in the list? -/
def containsGameMarker : List Char → Bool
  | [] => false
  | c :: rest =>
    (markerHere (c :: rest) ||
      (match c :: rest with
       | g :: e :: t :: u :: _ =>
         g == Char.ofNat 71 && e == Char.ofNat 101 && t == Char.ofNat 116 && isUpperAlpha u
       | _ => false) ||
      (match rest with
       | d :: u :: _ => isLowerUnderscore c && d == Char.ofNat 46 && isUpperAlpha u
       | _ => false) ||
      (match rest with
       | d :: i :: _ => isLowerUnderscore c && d == Char.ofNat 95 && i == Char.ofNat 105
       | _ => false)) ||
      containsGameMarker rest

/-- Step for a bracketed game-variable expression: an open bracket, content
without close brackets holding at least one marker, then the close
bracket. -/
def stepGameVar : List Char → Option (List Char × List Char)
  | b :: rest =>
    if b == Char.ofNat 91 then
      let (mid, r1) := rest.span (fun x => x != Char.ofNat 93)
      match r1 with
      | e :: r2 =>
        if containsGameMarker mid then some (b :: mid ++ [e], r2) else none
      | [] => none
    else none
  | [] => none

/-- Collapse every whitespace run to a single space, the normalizeGameVar
helper of the validator. -/
def collapseWsAux : Nat → List Char → List Char
  | 0, s => s
  | _ + 1, [] => []
  | fuel + 1, c :: rest =>
    if isJsWs c then Char.ofNat 32 :: collapseWsAux fuel (rest.dropWhile isJsWs)
    else c :: collapseWsAux fuel rest

/-- Whitespace collapse over a full list. -/
def collapseWs (s : List Char) : List Char := collapseWsAux s.length s

/-- Find the closing quote of a string literal, honouring backslash escapes,
for the literal-replacement regex of normalizeGameVariableStructure.  A
backslash escape cannot swallow a line terminator because the regex dot
does not match one.  Returns the remainder after the closing quote. -/
def findLitClose (q : Char) : List Char → Option (List Char)
  | [] => none
  | c :: rest =>
    if c == bSlash then
      match rest with
      | x :: r => if isLineTerm x then none else findLitClose q r
      | [] => none
    else if c == q then some rest
    else findLitClose q rest

/-- The placeholder the validator substitutes for string literals. -/
def stringPlaceholder : List Char := sQuote :: "__STRING__".data ++ [sQuote]

/-- Embeds normalizeGameVariableStructure of the validator: replace every
quoted string literal with a fixed placeholder so that only the
call/property structure is compared. -/
def replaceLitsAux : Nat → List Char → List Char
  | 0, s => s
  | _ + 1, [] => []
  | fuel + 1, c :: rest =>
    if c == sQuote || c == dQuote then
      match findLitClose c rest with
      | some r => stringPlaceholder ++ replaceLitsAux fuel r
      | none => c :: replaceLitsAux fuel rest
    else c :: replaceLitsAux fuel rest

/-- Structure normalization of a game variable. -/
def normalizeGameVariableStructure (v : List Char) : List Char :=
  replaceLitsAux v.length v

/-- Find the closing quote for the literal-stripping regex of the Korean
check, which has no escape handling; the lazy dot still refuses line
terminators. -/
def findLitCloseNoEsc (q : Char) : List Char → Option (List Char)
  | [] => none
  | c :: rest =>
    if c == q then some rest
    else if isLineTerm c then none
    else findLitCloseNoEsc q rest

/-- Strip quoted string literals (no escapes), replacing them with nothing,
as done before the Hangul check on game variables. -/
def stripLitsAux : Nat → List Char → List Char
  | 0, s => s
  | _ + 1, [] => []
  | fuel + 1, c :: rest =>
    if c == sQuote || c == dQuote then
      match findLitCloseNoEsc c rest with
      | some r => stripLitsAux fuel r
      | none => c :: stripLitsAux fuel rest
    else c :: stripLitsAux fuel rest

/-- Literal stripping over a full list. -/
def stripLits (s : List Char) : List Char := stripLitsAux s.length s

/-- Does the list contain a Hangul syllable? -/
def hasHangul (s : List Char) : Bool := s.any isHangul

/-- Tail of the gender-function pattern after the namespaces, on a
lowercased variable: the word get, one of the exempted gender accessor
names, an optional pipe with an ASCII letter (the case-insensitive
uppercase class), then the close bracket. -/
def genderTail (r : List Char) : Bool :=
  if listStartsWith "get".data r then
    let r1 := r.drop 3
    ["herhis".data, "herhim".data, "shehe".data, "womanman".data,
      "herselfhimself".data].any (fun a =>
      listStartsWith a r1 &&
        (let r2 := r1.drop a.length
         match r2 with
         | e :: _ =>
           (e == Char.ofNat 93) ||
             (match r2 with
              | p :: l :: e2 :: _ =>
                p == Char.ofNat 124 && isLowerAlpha l && e2 == Char.ofNat 93
              | _ => false)
         | [] => false))
  else false

/-- Namespace loop of the gender-function pattern: either the tail matches
here, or one namespace segment (letters or underscores then a dot) is
consumed and the loop continues. -/
def genderNsLoop : Nat → List Char → Bool
  | 0, r => genderTail r
  | fuel + 1, r =>
    genderTail r ||
      (let (run, r1) := r.span isLowerUnderscore
       !run.isEmpty &&
         match r1 with
         | d :: r2 => d == Char.ofNat 46 && genderNsLoop fuel r2
         | [] => false)

/-- Search for the gender-function pattern anywhere in the lowercased
variable (the test call of the source regex with the ignore-case flag). -/
def genderSearchAux : List Char → Bool
  | [] => false
  | c :: rest =>
    (c == Char.ofNat 91 && genderNsLoop rest.length rest) || genderSearchAux rest

/-- Embeds the genderFunctionPattern test of the validator. -/
def genderFunctionTest (v : List Char) : Bool :=
  genderSearchAux (lowerStr v)

/-- Embeds validateTranslation of the validator part of
src/scripts/utils/upstream.ts (lines 884-1023): trim both strings, then run
the malformed-variable, unwanted-phrase, style-marker, technical-identifier
and game-variable checks in that order, short-circuiting on the first
failure. -/
def validateTranslation (sourceText translatedText : String)
    (_gameType : GameType := GameType.ck3) : ValidationResult :=
  let normalizedSource := jsTrim sourceText.data
  let normalizedTranslation := jsTrim translatedText.data
  let malformedVariables := detectMalformedVariables normalizedTranslation
  if !malformedVariables.isEmpty then
    { isValid := false, reason := some (Reason.malformedVariables malformedVariables) }
  else if hasUnwantedPhrase normalizedTranslation then
    { isValid := false, reason := some Reason.unwantedPhrase }
  else
    let stylePatterns := jsMatchAll stepStyleMarker normalizedSource
    if decide (0 < stylePatterns.length) && styleLoopReject normalizedTranslation stylePatterns then
      { isValid := false, reason := some Reason.styleMarkerTranslated }
    else
      let technicalIdentifiers := technicalIdentifiersOf normalizedSource
      let missingIdentifiers :=
        technicalIdentifiers.filter (fun id => !containsSub id normalizedTranslation)
      if decide (0 < technicalIdentifiers.length) && !missingIdentifiers.isEmpty then
        { isValid := false,
          reason := some (Reason.technicalIdentifierMissing missingIdentifiers) }
      else
        let sourceGameVariables :=
          (jsMatchAll stepGameVar normalizedSource).map collapseWs
        let translationGameVariables :=
          (jsMatchAll stepGameVar normalizedTranslation).map collapseWs
        if decide (0 < sourceGameVariables.length) then
          let uniqueSourceVars := jsDedup sourceGameVariables
          let uniqueTransVars := jsDedup translationGameVariables
          let filteredSourceVars :=
            uniqueSourceVars.filter (fun v => !genderFunctionTest v)
          let missingVars := filteredSourceVars.filter (fun sv =>
            !(uniqueTransVars.any (fun tv =>
              normalizeGameVariableStructure tv == normalizeGameVariableStructure sv)))
          if !missingVars.isEmpty then
            { isValid := false, reason := some (Reason.missingGameVariables missingVars) }
          else
            let koreanVariables := translationGameVariables.filter (fun v =>
              hasHangul (stripLits v))
            if !koreanVariables.isEmpty then
              { isValid := false,
                reason := some (Reason.koreanInGameVariables koreanVariables) }
            else { isValid := true }
        else { isValid := true }

/-- The CK3 dictionary of the dictionary module (ck3Dictionaries), in source
order.  One key contains an apostrophe and is assembled around sQuote. -/
def ck3Dictionaries : List (String × String) :=
  [("af Möre", "아프 뫼레"), ("af Fasge", "아프 파스게"), ("anuket", "아누케트"),
    ("basic skill", "기본 능력"), ("blemmye", "블렘미"), ("blemmyes", "블렘미"),
    ("blemmyae", "블렘미"), ("blunder", "실수"), ("character", "인물"),
    ("casual", "무관심"), ("chios", "히오스"), ("duke", "공작"),
    ("elephantine", "엘레판티네"), ("excellent", "훌륭하군"), ("excellent!", "훌륭하군!"),
    ("ganger", "갱어"), ("hexi", "하서"), ("high king", "고왕"),
    ("historical context:", "역사적 배경:"), ("hoftag", "궁중의회"), ("horus", "호루스"),
    ("imhotep", "임호테프"), ("isis", "이시스"), ("italienzug", "이탈리엔추크"),
    ("i look forward to seeing the final result!", "최종 결과물이 기대되는 군!"),
    ("kalabsha", "칼라브샤"), ("karakoram", "카라코람"), ("khnum", "크눔"),
    ("king", "왕"), ("landless", "비지주"),
    (String.mk ("let".data ++ sQuote :: "s get started!".data), "시작해보지!"),
    ("mandulis", "만둘리스"), ("mastic", "유향"), ("ok", "네"), ("osiris", "오시리스"),
    ("philae", "필레"), ("RICE", "RICE"), ("satet", "사티스"), ("satis", "사티스"),
    ("satjit", "사티스"), ("senate", "원로원"), ("sinhala", "싱할라어"),
    ("stewardship", "관리력"), ("tutu", "투투"), ("very good", "아주 좋군"),
    ("very good!", "아주 좋군!"), ("VIET", "VIET"), ("wakhan", "와한"),
    ("watchposts", "감시 초소"), ("wenmo", "올말"), ("zhebu", "절포"),
    ("xxxxx", "xxxxx")]

/-- The Stellaris dictionary (stellarisDictionaries). -/
def stellarisDictionaries : List (String × String) :=
  [("empire", "제국"), ("federation", "연방"), ("unity", "통합"), ("influence", "영향력"),
    ("science ship", "과학선"), ("research station", "연구소"), ("ok", "네"),
    ("pop", "팝"), ("living metal", "생체 금속"), ("zro", "즈로")]

/-- The VIC3 dictionary (vic3Dictionaries). -/
def vic3Dictionaries : List (String × String) :=
  [("ok", "네")]

/-- Embeds getDictionaries of the dictionary module: selects the per-domain
table. -/
def getDictionaries (gameType : GameType) : List (String × String) :=
  match gameType with
  | GameType.ck3 => ck3Dictionaries
  | GameType.stellaris => stellarisDictionaries
  | GameType.vic3 => vic3Dictionaries

/-- Embeds normalizeKey of the dictionary module: lowercase the probe key.
Note that only the probe is lowercased, never the stored table keys. -/
def normalizeKey (key : String) : String := String.mk (lowerStr key.data)

/-- Embeds hasDictionary: property test against the normalized key. -/
def hasDictionary (key : String) (gameType : GameType := GameType.ck3) : Bool :=
  ((getDictionaries gameType).find? (fun e => e.1 == normalizeKey key)).isSome

/-- Embeds getDictionary: lookup of the normalized key, with the JS
or-null collapsing an empty value to none. -/
def getDictionary (key : String) (gameType : GameType := GameType.ck3) : Option String :=
  match (getDictionaries gameType).find? (fun e => e.1 == normalizeKey key) with
  | some e => if e.2 == "" then none else some e.2
  | none => none

/-- Embeds getCacheKey of the cache module: CK3 keys are stored without a
domain marker for backward compatibility, every other domain name is put in
front of the key with a colon. -/
def getCacheKey (key : String) (gameType : GameType) : String :=
  match gameType with
  | GameType.ck3 => key
  | GameType.stellaris => "stellaris:" ++ key
  | GameType.vic3 => "vic3:" ++ key

/-- Embeds hasCache over the durable store, modelled as an association
list. -/
def hasCacheL (key : String) (gameType : GameType) (cache : List (String × String)) : Bool :=
  (cache.find? (fun e => e.1 == getCacheKey key gameType)).isSome

/-- Embeds getCache. -/
def getCacheL (key : String) (gameType : GameType) (cache : List (String × String)) :
    Option String :=
  (cache.find? (fun e => e.1 == getCacheKey key gameType)).map Prod.snd

/-- Key-value upsert of the store. -/
def upsert (k v : String) : List (String × String) → List (String × String)
  | [] => [(k, v)]
  | e :: rest => if e.1 == k then (k, v) :: rest else e :: upsert k v rest

/-- Embeds setCache: overwrite or insert under the domain-marked key. -/
def setCacheL (key value : String) (gameType : GameType)
    (cache : List (String × String)) : List (String × String) :=
  upsert (getCacheKey key gameType) value cache

/-- Modelled from the spec: removeCache is imported by the dispatcher from
the cache module but the revision of that module holding it is not in the
sources; the spec describes cache invalidation as deleting the entry for
the domain-marked key, which this definition performs. -/
def removeCacheL (key : String) (gameType : GameType)
    (cache : List (String × String)) : List (String × String) :=
  cache.filter (fun e => e.1 != getCacheKey key gameType)

/-- Full match of a delimiter-wrapped variable name, used for the dollar,
pound, at and angle variable-only patterns of the dispatcher. -/
def fullDelimVar (d e : Char) (s : List Char) : Bool :=
  match s with
  | c :: rest =>
    c == d &&
      (let (run, r1) := rest.span isVarNameChar
       !run.isEmpty && r1 == [e])
  | [] => false

/-- Identifier head character of the square-bracket pattern. -/
def isIdentStart (c : Char) : Bool := isAsciiLetter c || c == Char.ofNat 95

/-- Dotted identifier chain of the square-bracket variable-only pattern. -/
def dottedIdents : Nat → List Char → Bool
  | _, [] => false
  | fuel, c :: rest =>
    isIdentStart c &&
      (let (_, r1) := (c :: rest).span isWordChar
       match r1 with
       | [] => true
       | d :: r2 =>
         d == Char.ofNat 46 &&
           (match fuel with
            | f + 1 => dottedIdents f r2
            | 0 => false))

/-- Pipe form of the square-bracket variable-only pattern (word characters,
a pipe, word characters). -/
def pipeForm (s : List Char) : Bool :=
  let (run1, r1) := s.span isWordChar
  !run1.isEmpty &&
    match r1 with
    | p :: r2 =>
      p == Char.ofNat 124 &&
        (let (run2, r3) := r2.span isWordChar
         !run2.isEmpty && r3.isEmpty)
    | [] => false

/-- Full match of the square-bracket variable-only pattern of the
dispatcher. -/
def squareBracketOnly (s : List Char) : Bool :=
  match s with
  | b :: rest =>
    b == Char.ofNat 91 && !rest.isEmpty && rest.getLast? == some (Char.ofNat 93) &&
      (let content := rest.dropLast
       dottedIdents content.length content || pipeForm content)
  | [] => false

/-- Full match of the hash-format variable-only pattern (hash, letters or
underscores, hash, optional exclamation mark). -/
def hashFormatOnly (s : List Char) : Bool :=
  match s with
  | h :: rest =>
    h == Char.ofNat 35 &&
      (let (run, r1) := rest.span (fun c => isAsciiLetter c || c == Char.ofNat 95)
       !run.isEmpty &&
         (r1 == [Char.ofNat 35] || r1 == [Char.ofNat 35, Char.ofNat 33]))
  | [] => false

/-- Embeds the six variable-only regexes of the dispatcher
(src/unnamed/part_014 lines 22-27): the whole normalized string is exactly
one placeholder token. -/
def isVariableOnly (s : List Char) : Bool :=
  fullDelimVar (Char.ofNat 36) (Char.ofNat 36) s ||
    fullDelimVar (Char.ofNat 163) (Char.ofNat 163) s ||
    fullDelimVar (Char.ofNat 64) (Char.ofNat 64) s ||
    fullDelimVar (Char.ofNat 60) (Char.ofNat 62) s ||
    squareBracketOnly s ||
    hashFormatOnly s

/-- Decidable equality for Except, needed to evaluate dispatcher runs. -/
instance exceptDecEq {ε α : Type} [DecidableEq ε] [DecidableEq α] :
    DecidableEq (Except ε α)
  | Except.error a, Except.error b =>
    if h : a = b then isTrue (congrArg Except.error h)
    else isFalse (fun hh => h (Except.error.inj hh))
  | Except.error _, Except.ok _ => isFalse (fun hh => Except.noConfusion hh)
  | Except.ok _, Except.error _ => isFalse (fun hh => Except.noConfusion hh)
  | Except.ok a, Except.ok b =>
    if h : a = b then isTrue (congrArg Except.ok h)
    else isFalse (fun hh => h (Except.ok.inj hh))

/-- State threaded through a dispatch: the durable cache store and the
number of AI invocations so far. -/
structure TState where
  cache : List (String × String)
  aiCalls : Nat
deriving DecidableEq

/-- The terminal dispatcher error: the retry ceiling was exceeded; the error
carries the offending text as the source message does. -/
inductive TranslateError where
  | exhausted (text : String)
deriving DecidableEq

/-- Embeds translate of src/unnamed/part_014 (the Translation Dispatcher).
The AI client is an oracle from the invocation index, the raw text and the
domain to the response text; gas is a structural recursion bound that can
never be exhausted because the retry counter reaches the ceiling first (the
gas-zero fallback equals the ceiling error and is unreachable from the
wrapper below). -/
def translateGo (ai : Nat → String → GameType → String) (text : String)
    (gameType : GameType) : Nat → Nat → TState → TState × Except TranslateError String
  | 0, _, st => (st, Except.error (TranslateError.exhausted text))
  | gas + 1, retry, st =>
    if retry > 5 then (st, Except.error (TranslateError.exhausted text))
    else if text == "" then (st, Except.ok "")
    else if String.mk (jsTrim text.data) == "" then (st, Except.ok "")
    else
      let normalizedText := String.mk (jsTrim text.data)
      if isVariableOnly normalizedText.data then (st, Except.ok normalizedText)
      else if hasDictionary normalizedText gameType then
        (st, Except.ok ((getDictionary normalizedText gameType).getD ""))
      else
        let cacheStep : Option String × TState :=
          if hasCacheL normalizedText gameType st.cache then
            match getCacheL normalizedText gameType st.cache with
            | some cached =>
              if cached != "" then
                if (validateTranslation normalizedText cached gameType).isValid then
                  (some cached, st)
                else
                  (none, { st with cache := removeCacheL normalizedText gameType st.cache })
              else (none, st)
            | none => (none, st)
          else (none, st)
        match cacheStep with
        | (some cached, st1) => (st1, Except.ok cached)
        | (none, st1) =>
          let translatedText := ai st1.aiCalls text gameType
          let st2 : TState := { st1 with aiCalls := st1.aiCalls + 1 }
          if containsSub "language model".data (lowerStr translatedText.data) then
            translateGo ai text gameType gas (retry + 1) st2
          else if !(validateTranslation normalizedText translatedText gameType).isValid then
            translateGo ai text gameType gas (retry + 1) st2
          else
            ({ st2 with cache := setCacheL text translatedText gameType st2.cache },
              Except.ok translatedText)

/-- The dispatcher entry point: seven units of gas cover the deepest
possible recursion (retries zero through five plus the ceiling error). -/
def translate (ai : Nat → String → GameType → String) (text : String)
    (gameType : GameType := GameType.ck3) (retry : Nat := 0) (st : TState) :
    TState × Except TranslateError String :=
  translateGo ai text gameType 7 retry st

/-- Retry ceiling of the queue (MAX_RETRIES of src/scripts/utils/queue.ts). -/
def MAX_RETRIES : Nat := 5

/-- Backoff schedule of the queue in milliseconds (RETRY_DELAYS). -/
def RETRY_DELAYS : List Nat := [0, 1000, 2000, 8000, 10000, 60000]

/-- Minimum spacing between task starts in milliseconds
(RATE_LIMIT_INTERVAL). -/
def RATE_LIMIT_INTERVAL : Nat := 250

/-- Structural core of executeTaskWithRetry: a task is an oracle from the
attempt index to the outcome of that attempt.  The gas-zero branch coincides
with the behaviour at a retry count at or above the ceiling (attempt once,
then surface the error), so the wrapper below is faithful for every retry
count. -/
def executeGo (task : Nat → Except String Unit) : Nat → Nat → Except String Unit
  | 0, retryCount =>
    match task retryCount with
    | Except.ok () => Except.ok ()
    | Except.error e => Except.error e
  | gas + 1, retryCount =>
    match task retryCount with
    | Except.ok () => Except.ok ()
    | Except.error e =>
      if retryCount < MAX_RETRIES then executeGo task gas (retryCount + 1)
      else Except.error e

/-- Embeds executeTaskWithRetry of src/scripts/utils/queue.ts (lines 43-69):
run the task, and on failure retry after the scheduled backoff until the
retry count reaches MAX_RETRIES, then rethrow the last error. -/
def executeTaskWithRetry (task : Nat → Except String Unit) (retryCount : Nat := 0) :
    Except String Unit :=
  executeGo task (MAX_RETRIES - retryCount) retryCount

/-- Embeds the drain loop of processQueue as observed by outcome dataflow:
tasks run strictly one after the other; the first task whose retries are
exhausted makes the loop body throw, so the loop aborts with the remaining
tasks still queued, the isProcessing flag still set (the line clearing it
is skipped by the throw) and the error escaping the async call.  Returns
the remaining queue, the final flag and that escaped error. -/
def processQueueModel :
    List (Nat → Except String Unit) →
      List (Nat → Except String Unit) × Bool × Option String
  | [] => ([], false, none)
  | t :: rest =>
    match executeTaskWithRetry t 0 with
    | Except.ok () => processQueueModel rest
    | Except.error e => (rest, true, some e)

/-- Queue component state: the pending FIFO list, the drain flag and the
sink of errors that escaped the un-awaited processQueue call (unhandled
promise rejections, invisible to every caller). -/
structure QueueState where
  pending : List (Nat → Except String Unit)
  isProcessing : Bool
  dropped : List String

/-- Embeds addQueue of src/scripts/utils/queue.ts (lines 13-20): push the
task, and when no drain loop is running start one without awaiting it.
The value of the promise addQueue returns is always the unit value — the
function body ends right after the synchronous push and conditional kick —
while any error escaping the drain loop lands in the dropped sink. -/
def addQueue (task : Nat → Except String Unit) (st : QueueState) :
    Except String Unit × QueueState :=
  let pending1 := st.pending ++ [task]
  if !st.isProcessing then
    let res := processQueueModel pending1
    (Except.ok (),
      { pending := res.1, isProcessing := res.2.1,
        dropped := st.dropped ++ res.2.2.toList })
  else (Except.ok (), { st with pending := pending1 })

/-- Timed model of the drain loop of processQueue (lines 22-41): the clock
is read, the loop sleeps until RATE_LIMIT_INTERVAL has passed since the
previous task start, the start time is recorded, and the task then runs
for its duration (retries and backoff included).  Given the durations of
the successive tasks, returns the list of task start times. -/
def drainStarts (lastRequestTime clock : Nat) : List Nat → List Nat
  | [] => []
  | d :: rest =>
    let timeSinceLastRequest := clock - lastRequestTime
    let start :=
      if timeSinceLastRequest < RATE_LIMIT_INTERVAL then
        clock + (RATE_LIMIT_INTERVAL - timeSinceLastRequest)
      else clock
    start :: drainStarts start (start + d) rest

/-- The structural-equivalence example source of the spec: a Concatenate
call with a quoted literal and a GetName accessor (the apostrophes are
assembled around sQuote). -/
def srcConcatenateOr : String :=
  String.mk ("[Concatenate(".data ++ sQuote :: " or ".data ++ sQuote :: ", GetName)]".data)

/-- The accepted candidate: only the quoted literal is translated. -/
def candLiteralTranslated : String :=
  String.mk ("[Concatenate(".data ++ sQuote :: " 혹은 ".data ++ sQuote :: ", GetName)]".data)

/-- The rejected candidate: the accessor names themselves are written in the
target alphabet. -/
def candAccessorTranslated : String :=
  String.mk ("[연결(".data ++ sQuote :: " or ".data ++ sQuote :: ", 이름)]".data)

/-
Theorems.  Each claim of the specification is settled below; helper lemmas
come first.
-/

/-- Projection of the string constructor. -/
theorem data_mk (l : List Char) : (String.mk l).data = l := rfl

/-- A two-character scan finds a match whenever the pattern occurs as a
substring, provided the fuel covers the list. -/
theorem containsSub_scanWith_step2 (a b : Char) :
    ∀ (fuel : Nat) (l : List Char), l.length ≤ fuel →
      containsSub [a, b] l = true → scanWith (step2 a b) fuel l ≠ [] := by
  intro fuel
  induction fuel with
  | zero =>
    intro l hlen hsub
    have hl : l = [] := List.eq_nil_of_length_eq_zero (Nat.le_zero.mp hlen)
    subst hl
    simp [containsSub] at hsub
  | succ fuel ih =>
    intro l hlen hsub
    match l with
    | [] => simp [containsSub] at hsub
    | [c] => simp [containsSub, listStartsWith] at hsub
    | c :: d :: r =>
      by_cases hcnd : c = a ∧ d = b
      · obtain ⟨h1, h2⟩ := hcnd
        subst h1
        subst h2
        simp [scanWith, step2]
      · have hred : scanWith (step2 a b) (fuel + 1) (c :: d :: r) =
            scanWith (step2 a b) fuel (d :: r) := by
          simp [scanWith, step2, hcnd]
        rw [hred]
        apply ih (d :: r) (by simp at hlen ⊢; omega)
        have hsub2 : (listStartsWith [a, b] (c :: d :: r) ||
            containsSub [a, b] (d :: r)) = true := hsub
        simp only [Bool.or_eq_true] at hsub2
        rcases hsub2 with hL | hR
        · exfalso
          simp only [listStartsWith, Bool.and_true, Bool.and_eq_true, beq_iff_eq] at hL
          exact hcnd ⟨hL.1.symm, hL.2.symm⟩
        · exact hR

/-- A nonempty list stays nonempty after first-occurrence deduplication. -/
theorem jsDedup_ne_nil {l : List (List Char)} (h : l ≠ []) : jsDedup l ≠ [] := by
  match l with
  | [] => exact absurd rfl h
  | x :: xs =>
    simp [jsDedup, jsDedupAux, List.contains]

/-- A cross-delimiter mix of a dollar sign with a square bracket, in either
nesting order, makes detectMalformedVariables report at least one
pattern. -/
theorem detect_ne_nil_of_mix (t : List Char)
    (h : containsSub [Char.ofNat 36, Char.ofNat 91] t = true ∨
      containsSub [Char.ofNat 91, Char.ofNat 36] t = true) :
    detectMalformedVariables t ≠ [] := by
  simp only [detectMalformedVariables]
  apply jsDedup_ne_nil
  rcases h with h | h
  · have h1 : jsMatchAll (step2 (Char.ofNat 36) (Char.ofNat 91)) t ≠ [] :=
      containsSub_scanWith_step2 _ _ t.length t le_rfl h
    obtain ⟨y, ys, hy⟩ := List.exists_cons_of_ne_nil h1
    simp [jsMatchAll] at hy
    simp [jsMatchAll, hy]
  · have h1 : jsMatchAll (step2 (Char.ofNat 91) (Char.ofNat 36)) t ≠ [] :=
      containsSub_scanWith_step2 _ _ t.length t le_rfl h
    obtain ⟨y, ys, hy⟩ := List.exists_cons_of_ne_nil h1
    simp [jsMatchAll] at hy
    simp [jsMatchAll, hy]

/-- C3: for every source text and every candidate containing a
cross-delimiter placeholder mix (a dollar sign directly before an opening
square bracket, or an opening square bracket directly before a dollar
sign), validateTranslation rejects with the malformed-placeholder reason,
regardless of the source content and before any other check can report. -/
theorem c3_malformed_highest_priority (sourceText candidateText : String) (gt : GameType)
    (h : containsSub "$[".data (jsTrim candidateText.data) = true ∨
      containsSub "[$".data (jsTrim candidateText.data) = true) :
    validateTranslation sourceText candidateText gt =
      { isValid := false,
        reason := some (Reason.malformedVariables
          (detectMalformedVariables (jsTrim candidateText.data))) } := by
  have hd : detectMalformedVariables (jsTrim candidateText.data) ≠ [] := by
    apply detect_ne_nil_of_mix
    have e1 : ("$[" : String).data = [Char.ofNat 36, Char.ofNat 91] := by decide
    have e2 : ("[$" : String).data = [Char.ofNat 91, Char.ofNat 36] := by decide
    rcases h with h | h
    · exact Or.inl (e1 ▸ h)
    · exact Or.inr (e2 ▸ h)
  have hne : (detectMalformedVariables (jsTrim candidateText.data)).isEmpty = false := by
    obtain ⟨y, ys, hy⟩ := List.exists_cons_of_ne_nil hd
    rw [hy]
    rfl
  simp [validateTranslation, hne]

/-- C3 witness: a concrete rejection of a candidate holding the dollar
before bracket mix. -/
theorem c3_malformed_highest_priority_witness :
    validateTranslation "The King" "$[culture|E]" GameType.ck3 =
      { isValid := false,
        reason := some (Reason.malformedVariables
          (detectMalformedVariables (jsTrim ("$[culture|E]" : String).data))) } :=
  c3_malformed_highest_priority "The King" "$[culture|E]" GameType.ck3 (Or.inl (by decide))

/-- C4: structural equivalence tolerates literal translation.  The
candidate whose bracketed Concatenate expression differs from the source
only inside the quoted string literal is accepted, and the candidate whose
accessor names are written in the target alphabet is rejected. -/
theorem c4_structural_equivalence :
    (validateTranslation srcConcatenateOr candLiteralTranslated GameType.ck3).isValid = true ∧
      (validateTranslation srcConcatenateOr candAccessorTranslated GameType.ck3).isValid = false := by
  decide

/-- C10: the structural validator is domain-blind; the domain argument is
never read, so any two domains give identical validation results on every
source and candidate. -/
theorem c10_validator_domain_blind :
    ∀ (sourceText translatedText : String) (g1 g2 : GameType),
      validateTranslation sourceText translatedText g1 =
        validateTranslation sourceText translatedText g2 :=
  fun _ _ _ _ => rfl

/-- The style loop of the validator rejects as soon as some source marker is
missing from the candidate while the candidate carries a Hangul style
marker. -/
theorem styleLoopReject_of_missing (trans p : List Char) :
    ∀ pats : List (List Char), p ∈ pats → containsSub p trans = false →
      hangulStyleTest trans = true → styleLoopReject trans pats = true := by
  intro pats
  induction pats with
  | nil => intro hmem; simp at hmem
  | cons q rest ih =>
    intro hmem hmiss hhang
    by_cases hq : containsSub q trans = true
    · have hpq : p ≠ q := by
        intro he
        rw [he, hq] at hmiss
        cases hmiss
      have hrest : p ∈ rest := by
        rcases List.mem_cons.mp hmem with h | h
        · exact absurd h hpq
        · exact h
      simp [styleLoopReject, hq, ih hrest hmiss hhang]
    · have hq' : containsSub q trans = false := by
        cases hqq : containsSub q trans
        · rfl
        · exact absurd hqq hq
      simp [styleLoopReject, hq', hhang]

/-- C6 counterexample: the candidate drops the source style marker entirely
(the marker does not appear with its identifier, translated or otherwise),
yet validateTranslation accepts, refuting the claim that acceptance
requires the marker to appear with its identifier unchanged. -/
theorem c6_style_marker_counterexample :
    validateTranslation "#bold King#" "왕" GameType.ck3 = { isValid := true } ∧
      "#bold ".data ∈ jsMatchAll stepStyleMarker (jsTrim ("#bold King#" : String).data) ∧
      containsSub "#bold ".data (jsTrim ("왕" : String).data) = false := by
  decide

/-- C6 amended: when the earlier checks pass, a candidate missing one of the
source style markers is rejected exactly when it also carries a marker
whose keyword is written in the target alphabet; the rejection reason is
the translated-style-marker reason.  A candidate that merely drops the
marker without introducing a Hangul marker is not rejected by this
check. -/
theorem c6_style_marker_amended (sourceText candidateText : String) (gt : GameType)
    (h1 : detectMalformedVariables (jsTrim candidateText.data) = [])
    (h2 : hasUnwantedPhrase (jsTrim candidateText.data) = false)
    (p : List Char) (hp : p ∈ jsMatchAll stepStyleMarker (jsTrim sourceText.data))
    (hmiss : containsSub p (jsTrim candidateText.data) = false)
    (hhang : hangulStyleTest (jsTrim candidateText.data) = true) :
    validateTranslation sourceText candidateText gt =
      { isValid := false, reason := some Reason.styleMarkerTranslated } := by
  have hlen : 0 < (jsMatchAll stepStyleMarker (jsTrim sourceText.data)).length :=
    List.length_pos.mpr (List.ne_nil_of_mem hp)
  have hloop := styleLoopReject_of_missing (jsTrim candidateText.data) p _ hp hmiss hhang
  simp [validateTranslation, h1, h2, hloop, hlen]

/-- C6 witness: a concrete rejection where the source marker is absent from
the candidate and the candidate carries a Hangul marker keyword. -/
theorem c6_style_marker_amended_witness :
    validateTranslation "#bold King#" "#강조한 왕#" GameType.ck3 =
      { isValid := false, reason := some Reason.styleMarkerTranslated } :=
  c6_style_marker_amended "#bold King#" "#강조한 왕#" GameType.ck3 (by decide) (by decide)
    ("#bold ".data) (by decide) (by decide) (by decide)

/-- C1: cache write under the raw key.  The dispatcher looks the cache up
under the trimmed text but writes the accepted result back under the raw
untrimmed text, so for an input with surrounding whitespace the first
successful call stores nothing the second call can find: the second
identical call misses the cache, performs another AI invocation (the call
counter moves from one to two) and the normalized key is absent from the
store, refuting the claimed zero-AI idempotence. -/
theorem c1_cache_write_key_bug :
    translate (fun _ _ _ => "안녕") "hello " GameType.ck3 0 ⟨[], 0⟩ =
        (⟨[("hello ", "안녕")], 1⟩, Except.ok "안녕") ∧
      translate (fun _ _ _ => "안녕") "hello " GameType.ck3 0 ⟨[("hello ", "안녕")], 1⟩ =
        (⟨[("hello ", "안녕")], 2⟩, Except.ok "안녕") ∧
      hasCacheL (String.mk (jsTrim ("hello " : String).data)) GameType.ck3
        [("hello ", "안녕")] = false := by
  decide

/-- C5: the override lookup lowercases only the probe key, never the stored
table keys, so a table entry whose stored key contains uppercase letters
(here the key RICE, present in the CK3 table) can never match: the probe
for the very same text misses the table and the dispatcher falls through
to an AI invocation whose result is cached and returned instead of the
pre-approved override value. -/
theorem c5_override_case_bug :
    ("RICE", "RICE") ∈ ck3Dictionaries ∧
      hasDictionary "RICE" GameType.ck3 = false ∧
      translate (fun _ _ _ => "쌀") "RICE" GameType.ck3 0 ⟨[], 0⟩ =
        (⟨[("RICE", "쌀")], 1⟩, Except.ok "쌀") := by
  decide

/-- C7: placeholder inviolability.  Whenever the trimmed source text is
exactly one placeholder token of the dispatcher grammar, translate returns
the trimmed input unchanged with the state untouched, in particular with
zero AI invocations and no cache write. -/
theorem c7_placeholder_inviolability (ai : Nat → String → GameType → String)
    (text : String) (gt : GameType) (st : TState)
    (h : isVariableOnly (jsTrim text.data) = true) :
    translate ai text gt 0 st = (st, Except.ok (String.mk (jsTrim text.data))) := by
  have hb1 : (text == "") = false := by
    apply beq_eq_false_iff_ne.mpr
    intro he
    rw [he] at h
    exact absurd h (by decide)
  have hb2 : (String.mk (jsTrim text.data) == "") = false := by
    apply beq_eq_false_iff_ne.mpr
    intro he
    have hnil : jsTrim text.data = [] := by
      have h' := congrArg String.data he
      simpa using h'
    rw [hnil] at h
    exact absurd h (by decide)
  show translateGo ai text gt (6 + 1) 0 st = _
  simp [translateGo, hb1, hb2, data_mk, h]

/-- C7 witness: a pure dollar placeholder is returned trimmed and
unchanged with no state change. -/
theorem c7_placeholder_inviolability_witness :
    translate (fun _ _ _ => "") " $k_france$ " GameType.ck3 0 ⟨[], 0⟩ =
      (⟨[], 0⟩, Except.ok "$k_france$") :=
  c7_placeholder_inviolability (fun _ _ _ => "") " $k_france$ " GameType.ck3 ⟨[], 0⟩
    (by decide)

/-- Auxiliary ceiling run: with the text reaching the AI stage on every
attempt (nonempty, not a placeholder, no override hit, no cache hit) and an
oracle whose every response carries the refusal signature, the dispatcher
recursion performs one AI invocation per remaining attempt and ends in the
exhausted error. -/
theorem translateGo_exhaust (ai : Nat → String → GameType → String) (text : String)
    (gt : GameType)
    (h1 : (text == "") = false)
    (h2 : (String.mk (jsTrim text.data) == "") = false)
    (h3 : isVariableOnly (jsTrim text.data) = false)
    (h4 : hasDictionary (String.mk (jsTrim text.data)) gt = false)
    (h6 : ∀ n, containsSub ("language model".data) (lowerStr (ai n text gt).data) = true) :
    ∀ (m retry : Nat) (st : TState), retry + m = 6 →
      hasCacheL (String.mk (jsTrim text.data)) gt st.cache = false →
      translateGo ai text gt (m + 1) retry st =
        (⟨st.cache, st.aiCalls + m⟩, Except.error (TranslateError.exhausted text)) := by
  intro m
  induction m with
  | zero =>
    intro retry st hr h5
    have hgt : retry > 5 := by omega
    simp [translateGo, hgt]
  | succ k ih =>
    intro retry st hr h5
    have hngt : ¬ retry > 5 := by omega
    rw [translateGo]
    simp only [hngt, h1, h2, h3, h4, h5, h6, data_mk, Bool.false_eq_true, if_false,
      Bool.not_true, Bool.not_false, if_true, ite_false, ite_true]
    rw [ih (retry + 1) ⟨st.cache, st.aiCalls + 1⟩ (by omega) h5]
    have harith : st.aiCalls + 1 + k = st.aiCalls + (k + 1) := by omega
    rw [harith]

/-- C2: retry ceiling.  For a dispatch that reaches the AI stage and an
oracle whose queued responses always fail (every response carries the
refusal signature, so every attempt is discarded and retried), translate
surfaces the exhausted error carrying the offending text to the caller
after the initial attempt plus exactly five retries — six AI invocations —
rather than looping indefinitely; moreover the error fires as soon as the
internal counter exceeds the ceiling of five. -/
theorem c2_retry_ceiling (ai : Nat → String → GameType → String) (text : String)
    (gt : GameType) (st : TState)
    (h1 : text ≠ "")
    (h2 : String.mk (jsTrim text.data) ≠ "")
    (h3 : isVariableOnly (jsTrim text.data) = false)
    (h4 : hasDictionary (String.mk (jsTrim text.data)) gt = false)
    (h5 : hasCacheL (String.mk (jsTrim text.data)) gt st.cache = false)
    (h6 : ∀ n, containsSub ("language model".data) (lowerStr (ai n text gt).data) = true) :
    translate ai text gt 0 st =
        (⟨st.cache, st.aiCalls + 6⟩, Except.error (TranslateError.exhausted text)) ∧
      ∀ (retry : Nat) (st2 : TState), retry > 5 →
        translate ai text gt retry st2 =
          (st2, Except.error (TranslateError.exhausted text)) := by
  constructor
  · have hb1 : (text == "") = false := beq_eq_false_iff_ne.mpr h1
    have hb2 : (String.mk (jsTrim text.data) == "") = false := beq_eq_false_iff_ne.mpr h2
    show translateGo ai text gt (6 + 1) 0 st = _
    exact translateGo_exhaust ai text gt hb1 hb2 h3 h4 h6 6 0 st (by omega) h5
  · intro retry st2 hgt
    show translateGo ai text gt (6 + 1) retry st2 = _
    simp [translateGo, hgt]

/-- C2 witness: a dispatcher over an always-refusing oracle raises the
exhausted error carrying the text after six AI invocations. -/
theorem c2_retry_ceiling_witness :
    translate (fun _ _ _ => "As a language model I cannot") "Hello world" GameType.ck3 0
        ⟨[], 0⟩ =
      (⟨[], 6⟩, Except.error (TranslateError.exhausted "Hello world")) := by
  have hrefusal : containsSub "language model".data
      (lowerStr ("As a language model I cannot" : String).data) = true := by decide
  exact (c2_retry_ceiling (fun _ _ _ => "As a language model I cannot") "Hello world"
    GameType.ck3 ⟨[], 0⟩ (by decide) (by decide) (by decide) (by decide) (by decide)
    (fun _ => hrefusal)).1

/-- C8 counterexample: the promise addQueue returns resolves with the unit
value although the enqueued task never succeeds — its retries exhaust and
the last error lands in the unhandled-rejection sink with the drain flag
left set — refuting the claim that the promise is resolved only on success
and that the exhaustion error propagates to the caller. -/
theorem c8_queue_promise_counterexample :
    addQueue (fun _ => Except.error "boom") ⟨[], false, []⟩ =
        (Except.ok (), ⟨[], true, ["boom"]⟩) ∧
      executeTaskWithRetry (fun _ => Except.error "boom") 0 = Except.error "boom" :=
  ⟨rfl, rfl⟩

/-- C8 amended: the promise addQueue returns resolves immediately after the
enqueue with the unit value, whatever the outcome of the task — task results
reach callers only through callbacks captured inside the task closure —
and when a task always fails, its retries exhaust after the initial
attempt plus five retries, and the last error (the error of attempt five)
is dropped into the unhandled-rejection sink at queue level with the drain
flag left set, instead of rejecting the promise of any caller. -/
theorem c8_queue_promise_amended :
    (∀ (task : Nat → Except String Unit) (st : QueueState),
        (addQueue task st).1 = Except.ok ()) ∧
      ∀ f : Nat → String,
        addQueue (fun n => Except.error (f n)) ⟨[], false, []⟩ =
          (Except.ok (), ⟨[], true, [f 5]⟩) := by
  constructor
  · intro task st
    unfold addQueue
    split
    · rfl
    · rfl
  · intro f
    rfl

/-- Consecutive drain-loop start times, including the start of the previous
task the loop state remembers, are spaced by at least the rate-limit
interval, and the first produced start time is at least one interval after
the remembered one. -/
theorem drainStarts_spacing :
    ∀ (ds : List Nat) (lastRequestTime clock : Nat), lastRequestTime ≤ clock →
      List.Chain' (fun a b => a + RATE_LIMIT_INTERVAL ≤ b)
          (drainStarts lastRequestTime clock ds) ∧
        ∀ x, (drainStarts lastRequestTime clock ds).head? = some x →
          lastRequestTime + RATE_LIMIT_INTERVAL ≤ x := by
  intro ds
  induction ds with
  | nil =>
    intro last clock _
    constructor
    · simp [drainStarts]
    · intro x hx
      simp [drainStarts] at hx
  | cons d rest ih =>
    intro last clock hlc
    have hstart : last + RATE_LIMIT_INTERVAL ≤
        (if clock - last < RATE_LIMIT_INTERVAL then
          clock + (RATE_LIMIT_INTERVAL - (clock - last)) else clock) := by
      split <;> omega
    have hrec := ih (if clock - last < RATE_LIMIT_INTERVAL then
        clock + (RATE_LIMIT_INTERVAL - (clock - last)) else clock)
      ((if clock - last < RATE_LIMIT_INTERVAL then
        clock + (RATE_LIMIT_INTERVAL - (clock - last)) else clock) + d)
      (Nat.le_add_right _ _)
    constructor
    · simp only [drainStarts]
      rw [List.chain'_cons']
      exact ⟨fun x hx => hrec.2 x hx, hrec.1⟩
    · intro x hx
      simp only [drainStarts, List.head?_cons, Option.some.injEq] at hx
      omega

/-- C9: rate limiting.  For every sequence of task durations and any clock
at or past the remembered previous start, the start times produced by the
drain loop are spaced by at least the rate-limit interval, measured start
to start, independent of the individual durations. -/
theorem c9_rate_limiting (durations : List Nat) (lastRequestTime clock : Nat)
    (h : lastRequestTime ≤ clock) :
    List.Chain' (fun a b => a + RATE_LIMIT_INTERVAL ≤ b)
      (drainStarts lastRequestTime clock durations) :=
  (drainStarts_spacing durations lastRequestTime clock h).1

/-- C9 witness: three zero-latency tasks start at least one interval
apart. -/
theorem c9_rate_limiting_witness :
    List.Chain' (fun a b => a + RATE_LIMIT_INTERVAL ≤ b) (drainStarts 0 0 [0, 0, 0]) :=
  c9_rate_limiting [0, 0, 0] 0 0 (Nat.le_refl 0)

end PAT
